import Mathlib

/-!
Shallow embedding of `src/xml_ingestion_template.py` (the `XMLIngestor` class
and its configuration), together with proofs of the specification's claims
about that module.

Modelling conventions:
* Python exceptions are modelled with `Except PyError`; each exception class
  the module distinguishes is a `PyError` constructor carrying `str(e)`.
* `xml.etree.ElementTree` elements are modelled by the inductive `Element`;
  `ET.iterparse(source, events=('end',))` delivers every element of the tree
  in end-event order, i.e. postorder, so the streamed sequence of a
  well-formed source is the postorder traversal of its root.
* Python dicts are insertion ordered; a `Record` is the association list of a
  dict whose values are strings or lists of strings.  `dictSet` keeps the
  position of an existing key and appends a new key at the end, exactly as a
  Python dict assignment does.
* `float(s)` is modelled by a recognizer of Python's float-literal grammar;
  the resulting float object is represented by the accepted (stripped)
  literal itself, which suffices for every claim below since no claim
  inspects float arithmetic.
* Generators are modelled by the outcome of draining them: the list of all
  yields on success, or the exception they stop with.  The entry points the
  claims talk about (`ingest_to_dataframe`, a full iteration of
  `ingest_batch`) observe generators exactly this way.
-/

namespace XMLIngestion

/-- Python exception values, tagged by the classes the module distinguishes
and carrying the message `str(e)`. -/
inductive PyError : Type where
  | etParseError : String → PyError
  | xmlIngestionError : String → PyError
  | valueError : String → PyError
  | otherExc : String → PyError
  deriving DecidableEq, Repr

/-- The message of an exception, Python's `str(e)`. -/
def PyError.msg : PyError → String
  | .etParseError m => m
  | .xmlIngestionError m => m
  | .valueError m => m
  | .otherExc m => m

/-- A Python runtime value, as far as `_convert_type` can produce one.  A
float object is represented by the (stripped) literal it was parsed from;
`obj ty arg` stands for the object built by calling a custom target type
`ty` on the string `arg`. -/
inductive PyValue : Type where
  | none : PyValue
  | bool : Bool → PyValue
  | int : Int → PyValue
  | float : String → PyValue
  | str : String → PyValue
  | obj : String → String → PyValue
  deriving DecidableEq, Repr

/-- The value of one field of a `Record`: either the scalar text of a single
child, or the list built for a repeated child tag. -/
inductive FieldValue : Type where
  | scalar : String → FieldValue
  | seq : List String → FieldValue
  deriving DecidableEq, Repr

/-- A Record: the insertion-ordered dict produced for one XML element,
modelled as an association list. -/
abbrev Record := List (String × FieldValue)

/-- Mirrors the `XMLIngestionConfig` dataclass with its field defaults.
`batch_size` is a Python int; every claim constrains it to be at least 1, so
`Nat` is enough.  `schema_path = none` models Python `None`. -/
structure XMLIngestionConfig : Type where
  batch_size : Nat := 1000
  record_tag : String := "record"
  namespaces : Option (List (String × String)) := none
  validate_schema : Bool := false
  schema_path : Option String := none
  encoding : String := "utf-8"
  strip_whitespace : Bool := true

/-- The default configuration, `XMLIngestionConfig()`. -/
def defaultConfig : XMLIngestionConfig := {}

/-- An `xml.etree.ElementTree.Element`: tag, attribute dict (unique keys),
text, and the list of direct children in document order. -/
inductive Element : Type where
  | mk : String → List (String × String) → Option String → List Element → Element

/-- The tag of an element. -/
def Element.tag : Element → String
  | .mk t _ _ _ => t

/-- The attribute dict of an element (keys are unique in XML). -/
def Element.attrib : Element → List (String × String)
  | .mk _ a _ _ => a

/-- The text of an element; Python `None` is `none`. -/
def Element.text : Element → Option String
  | .mk _ _ x _ => x

/-- The direct children of an element, in document order. -/
def Element.children : Element → List Element
  | .mk _ _ _ cs => cs

mutual

/-- End-event order of `iterparse(source, events=('end',))`: an element's end
event fires after all of its descendants', i.e. postorder. -/
def postorder : Element → List Element
  | .mk t a x cs => postorderList cs ++ [.mk t a x cs]

/-- Postorder traversal of a list of sibling elements, left to right. -/
def postorderList : List Element → List Element
  | [] => []
  | c :: cs => postorder c ++ postorderList cs

end

/-- An XML source handed to the ingestor.  `wellFormed root` parses cleanly
into the tree `root`; `malformed m` makes `ET.iterparse` raise
`ET.ParseError(m)`; `failing m` makes the reader raise some other
exception with message `m`. -/
inductive XMLSource : Type where
  | wellFormed : Element → XMLSource
  | malformed : String → XMLSource
  | failing : String → XMLSource

/-- Draining `ET.iterparse(xml_source, events=('end',))`: all end events in
order, or the raw exception the parser raises. -/
def iterparse : XMLSource → Except PyError (List Element)
  | .wellFormed root => .ok (postorder root)
  | .malformed m => .error (.etParseError m)
  | .failing m => .error (.otherExc m)

/-- Mirrors `XMLIngestor.stream_records`: iterate the end events, yield the
elements whose tag equals `record_tag`; `except ET.ParseError` re-raises an
`XMLIngestionError` with the parse message, and `except Exception` wraps any
other failure likewise.  (`elem.clear()` frees memory only and does not
change which elements are yielded.) -/
def stream_records (cfg : XMLIngestionConfig) (src : XMLSource) :
    Except PyError (List Element) :=
  match iterparse src with
  | .ok elems => .ok (elems.filter (fun e => e.tag == cfg.record_tag))
  | .error (.etParseError m) =>
      .error (.xmlIngestionError ("XML parsing error: " ++ m))
  | .error e =>
      .error (.xmlIngestionError ("Unexpected error during streaming: " ++ e.msg))

/-- The ASCII whitespace characters `str.strip()` and `str.isspace()`
recognize (space, tab, newline, carriage return, vertical tab, form feed). -/
def isPySpace (c : Char) : Bool :=
  c == ' ' || c == '\t' || c == '\n' || c == '\r' || c == '\x0b' || c == '\x0c'

/-- Python `s.strip()` with no argument: drop leading and trailing
whitespace. -/
def pyStrip (s : String) : String :=
  ⟨((s.toList.dropWhile isPySpace).reverse.dropWhile isPySpace).reverse⟩

/-- Python `s.lower()` (ASCII case folding suffices for the claims). -/
def pyLower (s : String) : String :=
  ⟨s.toList.map Char.toLower⟩

/-- Python `s.split(sep)` for a one-character separator, on the character
list of `s`: splitting never yields an empty list. -/
def splitChar (sep : Char) : List Char → List (List Char)
  | [] => [[]]
  | c :: cs =>
      if c == sep then [] :: splitChar sep cs
      else
        match splitChar sep cs with
        | [] => [[c]]
        | g :: gs => (c :: g) :: gs

/-- Mirrors `_safe_get_text(element, default='')`: `(element.text or '').strip()`
when `strip_whitespace` is set, the raw text otherwise. -/
def safe_get_text (cfg : XMLIngestionConfig) (e : Element) : String :=
  if cfg.strip_whitespace then pyStrip (e.text.getD "") else e.text.getD ""

/-- Mirrors `tag.split('\x7d')[1] if '\x7d' in tag else tag` from
`_element_to_dict`: when the tag contains a namespace delimiter the code
takes the second segment of the split (the text between the first and the
second delimiter, or everything after the only one). -/
def localName (tag : String) : String :=
  match splitChar '\x7d' tag.toList with
  | _ :: second :: _ => ⟨second⟩
  | _ => tag

/-- Python `key in dict` on a `Record`. -/
def dictContains (r : Record) (k : String) : Bool :=
  r.any (fun p => p.1 == k)

/-- Python `dict[key]` lookup on a `Record` (as an `Option`). -/
def dictGet (r : Record) (k : String) : Option FieldValue :=
  (r.find? (fun p => p.1 == k)).map Prod.snd

/-- Python `dict[key] = v` on a `Record`: replace in place when the key is
present (insertion order kept), otherwise append at the end. -/
def dictSet (r : Record) (k : String) (v : FieldValue) : Record :=
  if dictContains r k then r.map (fun p => if p.1 == k then (k, v) else p)
  else r ++ [(k, v)]

/-- The body of the child loop of `_element_to_dict`: look the local name up
in the record built so far; a present scalar is promoted to a two-element
list and the new text appended (`result[tag] = [result[tag]]` then
`.append(value)`), a present list just gets the text appended, and an absent
name is bound to the scalar text. -/
def mergeChild (cfg : XMLIngestionConfig) (result : Record) (child : Element) :
    Record :=
  let tag := localName child.tag
  let value := safe_get_text cfg child
  match dictGet result tag with
  | some (.scalar s) => dictSet result tag (.seq [s, value])
  | some (.seq l) => dictSet result tag (.seq (l ++ [value]))
  | none => dictSet result tag (.scalar value)

/-- Mirrors `_element_to_dict`: seed the dict with `element.attrib`
(`result.update(element.attrib)`; attribute keys are unique), then fold the
child loop over the direct children in document order. -/
def element_to_dict (cfg : XMLIngestionConfig) (e : Element) : Record :=
  e.children.foldl (mergeChild cfg)
    (e.attrib.map (fun p => (p.1, FieldValue.scalar p.2)))

/-- The target types `_convert_type` distinguishes: `bool`, `int`, `float`,
`str`, or any other callable type (named by a string). -/
inductive PyType : Type where
  | bool : PyType
  | int : PyType
  | float : PyType
  | str : PyType
  | custom : String → PyType
  deriving DecidableEq, Repr

/-- Decimal value of a list of digit characters. -/
def digitsVal (ds : List Char) : Nat :=
  ds.foldl (fun n c => n * 10 + (c.toNat - 48)) 0

/-- No two consecutive underscores (Python allows single underscores between
digits only). -/
def noDoubleUnderscore : List Char → Bool
  | c1 :: c2 :: rest =>
      !(c1 == '_' && c2 == '_') && noDoubleUnderscore (c2 :: rest)
  | _ => true

/-- A non-empty run of decimal digits with optional single underscores
strictly between digits, as accepted inside Python numeric literals. -/
def digitGroupStrict (cs : List Char) : Bool :=
  !cs.isEmpty &&
    cs.all (fun c => c.isDigit || c == '_') &&
    (cs.headD '0').isDigit && (cs.getLastD '0').isDigit &&
    noDoubleUnderscore cs

/-- A possibly-empty digit run with the same underscore rules. -/
def digitGroupOpt (cs : List Char) : Bool :=
  cs.isEmpty || digitGroupStrict cs

/-- Strip one optional leading sign. -/
def dropSign : List Char → List Char
  | '+' :: rest => rest
  | '-' :: rest => rest
  | cs => cs

/-- Whether the sign is a minus sign. -/
def isNeg : List Char → Bool
  | '-' :: _ => true
  | _ => false

/-- Python `int(s)` for a string argument: strip whitespace, optional sign,
then a digit run with underscore rules; `none` models the `ValueError` a
malformed literal raises. -/
def pyParseInt (s : String) : Option Int :=
  let cs := (pyStrip s).toList
  let body := dropSign cs
  if digitGroupStrict body then
    let n : Nat := digitsVal (body.filter Char.isDigit)
    some (if isNeg cs then -(n : Int) else (n : Int))
  else none

/-- The mantissa-and-exponent grammar of Python `float(s)` after sign
removal: `inf`, `infinity`, `nan` (case-insensitive), or digits with an
optional point and an optional signed exponent, with at least one mantissa
digit. -/
def pyFloatBody (cs : List Char) : Bool :=
  let lower := cs.map Char.toLower
  if lower == "inf".toList || lower == "infinity".toList ||
      lower == "nan".toList then true
  else
    let mantExp := cs.span (fun c => !(c == 'e' || c == 'E'))
    let mant := mantExp.1
    let expOk :=
      match mantExp.2 with
      | [] => true
      | _ :: r => digitGroupStrict (dropSign r)
    let ipRest := mant.span (fun c => c.isDigit || c == '_')
    let ip := ipRest.1
    let mantOk :=
      match ipRest.2 with
      | [] => digitGroupStrict ip
      | '.' :: fp =>
          digitGroupOpt ip && digitGroupOpt fp &&
            ((ip.any Char.isDigit) || (fp.any Char.isDigit))
      | _ => false
    mantOk && expOk

/-- Python `float(s)` for a string argument: strip whitespace, optional
sign, then the float grammar.  The accepted stripped literal stands for the
resulting float object; `none` models the `ValueError`. -/
def pyParseFloat (s : String) : Option String :=
  let t := pyStrip s
  if pyFloatBody (dropSign t.toList) then some t else none

/-- The `try` body of `_convert_type` on a (non-empty) string `value`: each
recognized target type converts as Python does, a custom target type builds
`target_type(value)`; a failed `int`/`float` parse raises `ValueError`. -/
def convert_type_body (value : String) (target : PyType) :
    Except PyError PyValue :=
  match target with
  | .bool =>
      .ok (.bool (pyLower value == "true" || pyLower value == "1" ||
        pyLower value == "yes" || pyLower value == "on"))
  | .int =>
      match pyParseInt value with
      | some n => .ok (.int n)
      | none => .error (.valueError ("invalid literal for int(): " ++ value))
  | .float =>
      match pyParseFloat value with
      | some lit => .ok (.float lit)
      | none => .error (.valueError ("could not convert string to float: " ++ value))
  | .str => .ok (.str value)
  | .custom ty => .ok (.obj ty value)

/-- Mirrors `_convert_type(value, target_type, default)`: `None` or an
empty/all-whitespace string returns `default` before any conversion; the
`except (ValueError, AttributeError, TypeError)` clause turns a failed
conversion into `default` (the only errors `convert_type_body` produces are
`ValueError`s, which that clause catches). -/
def convert_type (value : Option String) (target : PyType) (dflt : PyValue) :
    PyValue :=
  match value with
  | none => dflt
  | some v =>
      if pyStrip v == "" then dflt
      else
        match convert_type_body v target with
        | .ok r => r
        | .error _ => dflt

/-- The runtime environment `validate_xml` meets once it really validates:
`lxml` may be missing (`ImportError`), the schema check may return a
boolean, or the validator may raise some other exception. -/
inductive LxmlEnv : Type where
  | importError : LxmlEnv
  | validates : Bool → LxmlEnv
  | raises : String → LxmlEnv
  deriving DecidableEq, Repr

/-- Python truthiness of `self.config.schema_path`: `None` and the empty
string are falsy. -/
def isFalsyPath : Option String → Bool
  | none => true
  | some s => s == ""

/-- Mirrors `validate_xml`: return `True` at once unless `validate_schema`
is set and `schema_path` is truthy; otherwise a missing `lxml` fails open
with `True`, a completed schema check returns its boolean, and any other
exception is re-raised as an `XMLIngestionError`. -/
def validate_xml (cfg : XMLIngestionConfig) (env : LxmlEnv) :
    Except PyError Bool :=
  if !cfg.validate_schema || isFalsyPath cfg.schema_path then .ok true
  else
    match env with
    | .importError => .ok true
    | .validates b => .ok b
    | .raises m => .error (.xmlIngestionError ("Validation error: " ++ m))

/-- One record of the `ingest_batch` loop body: apply the caller transform
when one is supplied (it may raise any exception), else the default
extractor `_element_to_dict` (which never raises). -/
def applyTransform (cfg : XMLIngestionConfig)
    (transform : Option (Element → Except PyError Record)) (e : Element) :
    Except PyError Record :=
  match transform with
  | some f => f e
  | none => .ok (element_to_dict cfg e)

/-- Sequentially transform the streamed elements, stopping at the first
exception a transform raises (which aborts the ingestion unmodified). -/
def processRecords (cfg : XMLIngestionConfig)
    (transform : Option (Element → Except PyError Record)) :
    List Element → Except PyError (List Record)
  | [] => .ok []
  | e :: es =>
      match applyTransform cfg transform e with
      | .error err => .error err
      | .ok r =>
          match processRecords cfg transform es with
          | .error err => .error err
          | .ok rs => .ok (r :: rs)

/-- The batching loop of `ingest_batch`: append each record to the working
buffer, yield the buffer once `len(batch) >= batch_size`, and flush a final
non-empty buffer after the source is exhausted. -/
def batchLoop {α : Type} (B : Nat) : List α → List α → List (List α)
  | [], acc => if acc.isEmpty then [] else [acc]
  | r :: rs, acc =>
      if B ≤ (acc ++ [r]).length then (acc ++ [r]) :: batchLoop B rs []
      else batchLoop B rs (acc ++ [r])

/-- Mirrors a full drain of `ingest_batch(xml_source, transform_func)`:
stream the record elements, transform each in order, and group the records
with the batching loop.  An exception from the reader or from a transform
aborts the drain with exactly that exception. -/
def ingest_batch (cfg : XMLIngestionConfig) (src : XMLSource)
    (transform : Option (Element → Except PyError Record)) :
    Except PyError (List (List Record)) :=
  match stream_records cfg src with
  | .error e => .error e
  | .ok elems =>
      match processRecords cfg transform elems with
      | .error e => .error e
      | .ok records => .ok (batchLoop cfg.batch_size records [])

/-- The ingestion loop of `ingest_to_dataframe` after the validation gate:
`all_records.extend(batch)` for every batch, i.e. the concatenation of all
batches, handed to `pd.DataFrame`.  A `Table` is this list of records. -/
def ingestAllRecords (cfg : XMLIngestionConfig) (src : XMLSource)
    (transform : Option (Element → Except PyError Record)) :
    Except PyError (List Record) :=
  match ingest_batch cfg src transform with
  | .error e => .error e
  | .ok batches => .ok batches.flatten

/-- Mirrors `ingest_to_dataframe`: when `validate_schema` is set, run
`validate_xml` first and raise `XMLIngestionError("XML validation failed")`
on a `False` answer (a raising validator propagates its wrapped error);
otherwise, and after a passing validation, ingest every batch. -/
def ingest_to_dataframe (cfg : XMLIngestionConfig) (env : LxmlEnv)
    (src : XMLSource) (transform : Option (Element → Except PyError Record)) :
    Except PyError (List Record) :=
  if cfg.validate_schema then
    match validate_xml cfg env with
    | .error e => .error e
    | .ok false => .error (.xmlIngestionError "XML validation failed")
    | .ok true => ingestAllRecords cfg src transform
  else ingestAllRecords cfg src transform

/-! Concrete documents and configurations used by the scenario parts of the
claims and by the witnesses. -/

/-- One record element `<record id=.../>` of the batching-boundary
scenario. -/
def recN (s : String) : Element := .mk "record" [("id", s)] none []

/-- A document with five `record` elements in order. -/
def doc5 : Element :=
  .mk "data" [] none [recN "1", recN "2", recN "3", recN "4", recN "5"]

/-- The batching-boundary configuration: `batch_size = 2`, default
`record_tag`. -/
def cfg5 : XMLIngestionConfig := { batch_size := 2 }

/-- An element with two children `<tag>a</tag><tag>b</tag>` (the
duplicate-child-tags scenario). -/
def dupElem : Element :=
  .mk "item" [] none [.mk "tag" [] (some "a") [], .mk "tag" [] (some "b") []]

/-- An element whose single child's tag contains two namespace delimiters,
as produced for `<c xmlns="u\x7dv">` style sources: tag `\x7bu\x7dv\x7dw`. -/
def multiDelimElem : Element :=
  .mk "item" [] none [.mk "\x7bu\x7dv\x7dw" [] (some "x") []]

/-- A configuration that really gates on a schema. -/
def cfgValidating : XMLIngestionConfig :=
  { validate_schema := true, schema_path := some "schema.xsd" }

/-- Validation enabled but `schema_path` left `None`. -/
def cfgNoSchemaPath : XMLIngestionConfig := { validate_schema := true }

/-! Helper lemmas about the batching loop and the record pipeline. -/

/-- Concatenating the batches the loop builds gives the buffered records
followed by the remaining input, whatever the batch size. -/
theorem batchLoop_flatten {α : Type} (B : Nat) (rs : List α) :
    ∀ acc : List α, (batchLoop B rs acc).flatten = acc ++ rs := by
  induction rs with
  | nil =>
      intro acc
      by_cases h : acc = [] <;> simp [batchLoop, h]
  | cons r rs ih =>
      intro acc
      rw [batchLoop]
      by_cases h : B ≤ (acc ++ [r]).length
      · rw [if_pos h]
        simp [ih]
      · rw [if_neg h]
        simp [ih]

/-- Every batch the loop yields from a buffer shorter than `B` is non-empty
and no longer than `B`. -/
theorem batchLoop_mem {α : Type} (B : Nat) (rs : List α) :
    ∀ (acc : List α) (b : List α), acc.length < B → b ∈ batchLoop B rs acc →
      b ≠ [] ∧ b.length ≤ B := by
  induction rs with
  | nil =>
      intro acc b hacc hb
      by_cases h : acc = []
      · simp [batchLoop, h] at hb
      · simp [batchLoop, h] at hb
        subst hb
        exact ⟨h, Nat.le_of_lt hacc⟩
  | cons r rs ih =>
      intro acc b hacc hb
      by_cases h : B ≤ (acc ++ [r]).length
      · rw [batchLoop, if_pos h] at hb
        rcases List.mem_cons.mp hb with hb | hb
        · subst hb
          refine ⟨by simp, ?_⟩
          simp only [List.length_append, List.length_singleton]
          omega
        · exact ih [] b (by simpa using Nat.lt_of_le_of_lt (Nat.zero_le _) hacc) hb
      · rw [batchLoop, if_neg h] at hb
        refine ih (acc ++ [r]) b ?_ hb
        simp only [List.length_append, List.length_singleton] at h ⊢
        omega

/-- The number of batches the loop yields: with a buffer of `a < B` records
and `n` records still to come, exactly `(a + n + B - 1) / B` batches are
produced (the ceiling of `(a + n) / B`). -/
theorem batchLoop_length {α : Type} (B : Nat) (rs : List α) :
    ∀ acc : List α, acc.length < B →
      (batchLoop B rs acc).length = (acc.length + rs.length + B - 1) / B := by
  induction rs with
  | nil =>
      intro acc hacc
      cases acc with
      | nil =>
          have hL : batchLoop B ([] : List α) ([] : List α) = [] := rfl
          rw [hL]
          simp only [List.length_nil]
          exact (Nat.div_eq_of_lt (by omega)).symm
      | cons a as =>
          have hL : batchLoop B ([] : List α) (a :: as) = [a :: as] := rfl
          rw [hL]
          simp only [List.length_singleton, List.length_cons, List.length_nil]
          have hlen : as.length + 1 < B := by simpa using hacc
          have e1 : as.length + 1 + 0 + B - 1 = as.length + B := by omega
          rw [e1, Nat.add_div_right _ (by omega),
            Nat.div_eq_of_lt (by omega)]
  | cons r rs ih =>
      intro acc hacc
      rw [batchLoop]
      by_cases h : B ≤ (acc ++ [r]).length
      · rw [if_pos h]
        have hB : acc.length + 1 = B := by
          simp only [List.length_append, List.length_singleton] at h
          omega
        have h0 : ([] : List α).length < B := by simp; omega
        rw [List.length_cons, ih [] h0]
        simp only [List.length_nil, List.length_cons]
        have e1 : 0 + rs.length + B - 1 = rs.length + B - 1 := by omega
        have e2 : acc.length + (rs.length + 1) + B - 1 = rs.length + B - 1 + B := by
          omega
        rw [e1, e2, Nat.add_div_right _ (show 0 < B by omega)]
      · rw [if_neg h]
        have h' : (acc ++ [r]).length < B := Nat.lt_of_not_le h
        rw [ih (acc ++ [r]) h']
        simp only [List.length_append, List.length_singleton, List.length_cons,
          List.length_nil]
        congr 1
        omega

/-- With no caller transform, the pipeline applies the default extractor to
every streamed element, in order, and never raises. -/
theorem processRecords_none (cfg : XMLIngestionConfig) (elems : List Element) :
    processRecords cfg none elems = .ok (elems.map (element_to_dict cfg)) := by
  induction elems with
  | nil => rfl
  | cons e es ih => simp [processRecords, applyTransform, ih]

/-- An empty document: no element matches the default record tag. -/
def emptyDoc : Element := .mk "data" [] none []

/-- C1: for every batch size at least 1 and every well-formed document (one
whose streaming succeeds, yielding `elems`), a full drain of `ingest_batch`
with the default extractor succeeds, and concatenating all of its batches
reproduces exactly — same length, same order, same field values — the list
obtained by applying `_element_to_dict` to every streamed `record_tag`
element directly and sequentially: batching changes grouping only, never
data. -/
theorem ingest_batch_concat_refines_stream
    (cfg : XMLIngestionConfig) (src : XMLSource) (elems : List Element)
    (hB : 1 ≤ cfg.batch_size) (hs : stream_records cfg src = .ok elems) :
    ∃ bs, ingest_batch cfg src none = .ok bs ∧
      bs.flatten = elems.map (element_to_dict cfg) := by
  refine ⟨batchLoop cfg.batch_size (elems.map (element_to_dict cfg)) [], ?_, ?_⟩
  · simp [ingest_batch, hs, processRecords_none]
  · simpa using
      batchLoop_flatten cfg.batch_size (elems.map (element_to_dict cfg)) []

/-- Witness for C1 at the five-record document with batch size 2. -/
theorem ingest_batch_concat_refines_stream_witness :
    ∃ bs, ingest_batch cfg5 (.wellFormed doc5) none = .ok bs ∧
      bs.flatten =
        [recN "1", recN "2", recN "3", recN "4", recN "5"].map
          (element_to_dict cfg5) :=
  ingest_batch_concat_refines_stream cfg5 (.wellFormed doc5) _ (by decide) rfl

/-- C2: a well-formed document with `N` streamed `record_tag` elements and
batch size `B ≥ 1` yields exactly `(N + B - 1) / B` batches — the ceiling of
`N / B`, pinned down by `N ≤ B * count < N + B`, which is `0` exactly when
`N = 0`; in particular five records with batch size 2 yield batches of sizes
`[2, 2, 1]` in document order. -/
theorem ingest_batch_count :
    (∀ (cfg : XMLIngestionConfig) (src : XMLSource) (elems : List Element),
        1 ≤ cfg.batch_size → stream_records cfg src = .ok elems →
        ∃ bs, ingest_batch cfg src none = .ok bs ∧
          bs.length = (elems.length + cfg.batch_size - 1) / cfg.batch_size ∧
          elems.length ≤ cfg.batch_size * bs.length ∧
          cfg.batch_size * bs.length < elems.length + cfg.batch_size) ∧
      (ingest_batch cfg5 (.wellFormed doc5) none).map (List.map List.length) =
        .ok [2, 2, 1] := by
  constructor
  · intro cfg src elems hB hs
    refine ⟨batchLoop cfg.batch_size (elems.map (element_to_dict cfg)) [],
      ?_, ?_, ?_, ?_⟩
    all_goals
      have hlen :
          (batchLoop cfg.batch_size (elems.map (element_to_dict cfg)) []).length =
            (elems.length + cfg.batch_size - 1) / cfg.batch_size := by
        rw [batchLoop_length cfg.batch_size _ [] (by simp; omega)]
        simp
    · simp [ingest_batch, hs, processRecords_none]
    · exact hlen
    · rw [hlen]
      have h1 := Nat.div_add_mod (elems.length + cfg.batch_size - 1) cfg.batch_size
      have h2 := Nat.mod_lt (elems.length + cfg.batch_size - 1)
        (show 0 < cfg.batch_size by omega)
      omega
    · rw [hlen]
      have h1 := Nat.div_add_mod (elems.length + cfg.batch_size - 1) cfg.batch_size
      have h2 := Nat.mod_lt (elems.length + cfg.batch_size - 1)
        (show 0 < cfg.batch_size by omega)
      omega
  · rfl

/-- Witness for C2 at the five-record document with batch size 2. -/
theorem ingest_batch_count_witness :
    ∃ bs, ingest_batch cfg5 (.wellFormed doc5) none = .ok bs ∧
      bs.length = (5 + 2 - 1) / 2 ∧ 5 ≤ 2 * bs.length ∧ 2 * bs.length < 5 + 2 :=
  ingest_batch_count.1 cfg5 (.wellFormed doc5) _ (by decide) rfl

/-- C9: with a batch size of at least 1, every batch a successful drain of
`ingest_batch` yields is non-empty and holds at most `batch_size` records;
a source streaming zero matching elements yields zero batches, and
`ingest_to_dataframe` then returns the empty Table rather than an error or
an absent value. -/
theorem ingest_batch_bounds
    (cfg : XMLIngestionConfig) (env : LxmlEnv) (src : XMLSource)
    (bs : List (List Record)) (hB : 1 ≤ cfg.batch_size)
    (hib : ingest_batch cfg src none = .ok bs) :
    (∀ b ∈ bs, b ≠ [] ∧ b.length ≤ cfg.batch_size) ∧
      (stream_records cfg src = .ok [] →
        bs = [] ∧ (cfg.validate_schema = false →
          ingest_to_dataframe cfg env src none = .ok [])) := by
  cases hstream : stream_records cfg src with
  | error e => simp [ingest_batch, hstream] at hib
  | ok elems =>
      simp only [ingest_batch, hstream, processRecords_none, Except.ok.injEq] at hib
      subst hib
      constructor
      · intro b hb
        exact batchLoop_mem cfg.batch_size _ [] b (by simp; omega) hb
      · intro hempty
        have helems : elems = [] := Except.ok.inj hempty
        subst helems
        refine ⟨rfl, ?_⟩
        intro hvs
        simp [ingest_to_dataframe, hvs, ingestAllRecords, ingest_batch, hstream,
          processRecords_none, batchLoop]

/-- Witness for C9 at an empty document and at batch size 2. -/
theorem ingest_batch_bounds_witness :
    (∀ b ∈ ([] : List (List Record)), b ≠ [] ∧ b.length ≤ cfg5.batch_size) ∧
      (stream_records cfg5 (.wellFormed emptyDoc) = .ok [] →
        ([] : List (List Record)) = [] ∧ (cfg5.validate_schema = false →
          ingest_to_dataframe cfg5 .importError (.wellFormed emptyDoc) none =
            .ok [])) :=
  ingest_batch_bounds cfg5 .importError (.wellFormed emptyDoc) [] (by decide) rfl

/-- C6: a malformed source makes `stream_records` raise the
ingestion-specific `XMLIngestionError` wrapping the parse failure, any other
reader failure is likewise wrapped, and every error `stream_records` can
ever raise is an `XMLIngestionError` — the raw low-level exception never
propagates. -/
theorem stream_records_wraps_errors (cfg : XMLIngestionConfig) :
    (∀ m, stream_records cfg (.malformed m) =
        .error (.xmlIngestionError ("XML parsing error: " ++ m))) ∧
    (∀ m, stream_records cfg (.failing m) =
        .error (.xmlIngestionError ("Unexpected error during streaming: " ++ m))) ∧
    (∀ (src : XMLSource) (e : PyError), stream_records cfg src = .error e →
        ∃ m, e = .xmlIngestionError m) := by
  refine ⟨fun m => rfl, fun m => rfl, ?_⟩
  intro src e h
  cases src with
  | wellFormed root => simp [stream_records, iterparse] at h
  | malformed m =>
      simp only [stream_records, iterparse, Except.error.injEq] at h
      exact ⟨_, h.symm⟩
  | failing m =>
      simp only [stream_records, iterparse, Except.error.injEq] at h
      exact ⟨_, h.symm⟩

/-- Witness for C6 at a concrete malformed source. -/
theorem stream_records_wraps_errors_witness :
    stream_records defaultConfig (.malformed "boom") =
      .error (.xmlIngestionError ("XML parsing error: " ++ "boom")) ∧
    ∃ m, PyError.xmlIngestionError ("XML parsing error: " ++ "boom") =
      .xmlIngestionError m :=
  ⟨(stream_records_wraps_errors defaultConfig).1 "boom",
    (stream_records_wraps_errors defaultConfig).2.2 (.malformed "boom") _
      ((stream_records_wraps_errors defaultConfig).1 "boom")⟩

/-- A key absent from a `Record` under `dictGet` is absent under
`dictContains` as well. -/
theorem dictContains_false_of_get_none {r : Record} {k : String}
    (h : dictGet r k = none) : dictContains r k = false := by
  induction r with
  | nil => rfl
  | cons p ps ih =>
      by_cases hp : p.1 == k
      · simp [dictGet, List.find?, hp] at h
      · simp only [dictGet, List.find?, hp] at h
        simp only [dictContains, List.any_cons, hp, Bool.false_or]
        exact ih h

/-- C3 counterexample: the claim reads the local name as "everything up to
and including the namespace delimiter stripped", but on a child tag holding
two delimiters, `\x7bu\x7dv\x7dw` (namespace URI `u\x7dv`, as arises from
`xmlns="u\x7dv"`), the code's `tag.split('\x7d')[1]` keeps only the text
between the first two delimiters: the produced field name is `"v"`, not the
claim's `"v\x7dw"`. -/
theorem element_to_dict_localname_counterexample :
    element_to_dict defaultConfig multiDelimElem =
      [("v", FieldValue.scalar "x")] ∧
    ("v" : String) ≠ "v\x7dw" :=
  ⟨rfl, by decide⟩

/-- C3 as amended: the default extractor seeds the Record with every
attribute, then folds the children in document order; each child is keyed by
`localName` of its tag — the second segment of the split at namespace
delimiters, i.e. everything after the delimiter when there is exactly one —
a new key is bound to the scalar text, a present scalar is promoted to a
two-element sequence, a present sequence gets the text appended; two
children `<tag>a</tag><tag>b</tag>` produce the sequence `["a", "b"]`. -/
theorem element_to_dict_spec (cfg : XMLIngestionConfig) :
    (∀ (t : String) (attrs : List (String × String)) (tx : Option String),
        element_to_dict cfg (.mk t attrs tx []) =
          attrs.map (fun p => (p.1, FieldValue.scalar p.2))) ∧
    (∀ (t : String) (attrs : List (String × String)) (tx : Option String)
        (cs : List Element) (c : Element),
        element_to_dict cfg (.mk t attrs tx (cs ++ [c])) =
          mergeChild cfg (element_to_dict cfg (.mk t attrs tx cs)) c) ∧
    (∀ (r : Record) (c : Element), dictGet r (localName c.tag) = none →
        mergeChild cfg r c =
          r ++ [(localName c.tag, .scalar (safe_get_text cfg c))]) ∧
    (∀ (r : Record) (c : Element) (s : String),
        dictGet r (localName c.tag) = some (.scalar s) →
        mergeChild cfg r c =
          dictSet r (localName c.tag) (.seq [s, safe_get_text cfg c])) ∧
    (∀ (r : Record) (c : Element) (l : List String),
        dictGet r (localName c.tag) = some (.seq l) →
        mergeChild cfg r c =
          dictSet r (localName c.tag) (.seq (l ++ [safe_get_text cfg c]))) ∧
    element_to_dict defaultConfig dupElem = [("tag", FieldValue.seq ["a", "b"])] := by
  refine ⟨fun t attrs tx => rfl, ?_, ?_, ?_, ?_, rfl⟩
  · intro t attrs tx cs c
    simp [element_to_dict, Element.children, Element.attrib, List.foldl_append]
  · intro r c h
    rw [mergeChild, h]
    simp only [dictSet, dictContains_false_of_get_none h, Bool.false_eq_true,
      if_false]
  · intro r c s h
    rw [mergeChild, h]
  · intro r c l h
    rw [mergeChild, h]

/-- Witness for the amended C3 at concrete records and children. -/
theorem element_to_dict_spec_witness :
    mergeChild defaultConfig [] (.mk "tag" [] (some "a") []) =
      [] ++ [(localName "tag", .scalar (safe_get_text defaultConfig
        (.mk "tag" [] (some "a") [])))] ∧
    mergeChild defaultConfig [("tag", FieldValue.scalar "a")]
        (.mk "tag" [] (some "b") []) =
      dictSet [("tag", FieldValue.scalar "a")] (localName "tag")
        (.seq ["a", safe_get_text defaultConfig (.mk "tag" [] (some "b") [])]) ∧
    mergeChild defaultConfig [("tag", FieldValue.seq ["a", "b"])]
        (.mk "tag" [] (some "c") []) =
      dictSet [("tag", FieldValue.seq ["a", "b"])] (localName "tag")
        (.seq (["a", "b"] ++ [safe_get_text defaultConfig
          (.mk "tag" [] (some "c") [])])) :=
  ⟨(element_to_dict_spec defaultConfig).2.2.1 [] (.mk "tag" [] (some "a") []) rfl,
    (element_to_dict_spec defaultConfig).2.2.2.1 [("tag", FieldValue.scalar "a")]
      (.mk "tag" [] (some "b") []) "a" rfl,
    (element_to_dict_spec defaultConfig).2.2.2.2.1
      [("tag", FieldValue.seq ["a", "b"])] (.mk "tag" [] (some "c") [])
      ["a", "b"] rfl⟩

/-- C4: whatever the target kind and the configured default, `_convert_type`
returns the default immediately — before attempting any conversion — when
the value is `None` or a string that strips to empty. -/
theorem convert_type_empty_returns_default
    (target : PyType) (dflt : PyValue) :
    convert_type none target dflt = dflt ∧
      ∀ v : String, pyStrip v = "" → convert_type (some v) target dflt = dflt := by
  refine ⟨rfl, ?_⟩
  intro v hv
  simp [convert_type, hv]

/-- Witness for C4 at an absent value and at an all-whitespace string, for a
custom target kind. -/
theorem convert_type_empty_returns_default_witness :
    convert_type none (PyType.custom "Decimal") (.str "d") = .str "d" ∧
      convert_type (some " \t ") (PyType.custom "Decimal") (.str "d") = .str "d" :=
  ⟨(convert_type_empty_returns_default (PyType.custom "Decimal") (.str "d")).1,
    (convert_type_empty_returns_default (PyType.custom "Decimal") (.str "d")).2
      " \t " rfl⟩

/-- The `int(s)` model rejects a string that strips to empty. -/
theorem pyParseInt_of_strip_empty {v : String} (h : pyStrip v = "") :
    pyParseInt v = none := by
  rw [pyParseInt, h]
  rfl

/-- The `float(s)` model rejects a string that strips to empty. -/
theorem pyParseFloat_of_strip_empty {v : String} (h : pyStrip v = "") :
    pyParseFloat v = none := by
  rw [pyParseFloat, h]
  rfl

/-- C5: coercing any non-empty string to the integer or decimal kind either
returns the parsed number or, exactly when the parse fails, the
caller-supplied default; `_convert_type` is a total function on such inputs,
so no exception ever reaches the caller. -/
theorem convert_type_numeric_total (v : String) (dflt : PyValue)
    (hv : v ≠ "") :
    ((∃ n, pyParseInt v = some n ∧ convert_type (some v) .int dflt = .int n) ∨
      (pyParseInt v = none ∧ convert_type (some v) .int dflt = dflt)) ∧
    ((∃ lit, pyParseFloat v = some lit ∧
        convert_type (some v) .float dflt = .float lit) ∨
      (pyParseFloat v = none ∧ convert_type (some v) .float dflt = dflt)) := by
  by_cases he : pyStrip v = ""
  · refine ⟨Or.inr ⟨pyParseInt_of_strip_empty he, ?_⟩,
      Or.inr ⟨pyParseFloat_of_strip_empty he, ?_⟩⟩ <;>
    simp [convert_type, he]
  · constructor
    · cases hp : pyParseInt v with
      | none =>
          exact Or.inr ⟨rfl, by simp [convert_type, he, convert_type_body, hp]⟩
      | some n =>
          exact Or.inl ⟨n, rfl, by simp [convert_type, he, convert_type_body, hp]⟩
    · cases hp : pyParseFloat v with
      | none =>
          exact Or.inr ⟨rfl, by simp [convert_type, he, convert_type_body, hp]⟩
      | some lit =>
          exact Or.inl ⟨lit, rfl, by simp [convert_type, he, convert_type_body, hp]⟩

/-- Witness for C5 at a parseable and at an unparseable numeric string. -/
theorem convert_type_numeric_total_witness :
    (((∃ n, pyParseInt "42" = some n ∧
        convert_type (some "42") .int (.int 0) = .int n) ∨
      (pyParseInt "42" = none ∧ convert_type (some "42") .int (.int 0) = .int 0)) ∧
     ((∃ lit, pyParseFloat "42" = some lit ∧
        convert_type (some "42") .float (.int 0) = .float lit) ∨
      (pyParseFloat "42" = none ∧
        convert_type (some "42") .float (.int 0) = .int 0))) ∧
    (((∃ n, pyParseInt "x17" = some n ∧
        convert_type (some "x17") .int (.int 0) = .int n) ∨
      (pyParseInt "x17" = none ∧
        convert_type (some "x17") .int (.int 0) = .int 0)) ∧
     ((∃ lit, pyParseFloat "x17" = some lit ∧
        convert_type (some "x17") .float (.int 0) = .float lit) ∨
      (pyParseFloat "x17" = none ∧
        convert_type (some "x17") .float (.int 0) = .int 0))) :=
  ⟨convert_type_numeric_total "42" (.int 0) (by decide),
    convert_type_numeric_total "x17" (.int 0) (by decide)⟩

/-- C7: with schema validation enabled and a truthy schema path, a failed
validation — a `False` schema check or a raising validator — makes
`ingest_to_dataframe` raise an `XMLIngestionError` whatever the source is
(so before any streaming can matter), and no Table is produced. -/
theorem ingest_to_dataframe_validation_gate
    (cfg : XMLIngestionConfig) (env : LxmlEnv) (src : XMLSource)
    (f : Option (Element → Except PyError Record))
    (hv : cfg.validate_schema = true) (hp : isFalsyPath cfg.schema_path = false) :
    (env = .validates false →
        ingest_to_dataframe cfg env src f =
          .error (.xmlIngestionError "XML validation failed")) ∧
    (∀ m, env = .raises m →
        ingest_to_dataframe cfg env src f =
          .error (.xmlIngestionError ("Validation error: " ++ m))) := by
  constructor
  · rintro rfl
    simp [ingest_to_dataframe, validate_xml, hv, hp]
  · rintro m rfl
    simp [ingest_to_dataframe, validate_xml, hv, hp]

/-- Witness for C7 with a validating configuration and a failing schema
check (and a raising validator). -/
theorem ingest_to_dataframe_validation_gate_witness :
    (LxmlEnv.validates false = .validates false →
        ingest_to_dataframe cfgValidating (.validates false) (.wellFormed doc5)
          none = .error (.xmlIngestionError "XML validation failed")) ∧
    (∀ m, LxmlEnv.validates false = .raises m →
        ingest_to_dataframe cfgValidating (.validates false) (.wellFormed doc5)
          none = .error (.xmlIngestionError ("Validation error: " ++ m))) :=
  ingest_to_dataframe_validation_gate cfgValidating (.validates false)
    (.wellFormed doc5) none rfl rfl

/-- Sequential processing stops at the first record whose transform raises:
with every earlier element transformed successfully, the raised exception is
the pipeline's result, unmodified. -/
theorem processRecords_first_error (cfg : XMLIngestionConfig)
    (f : Element → Except PyError Record) (pre rest : List Element)
    (x : Element) (e : PyError)
    (hpre : ∀ el ∈ pre, ∃ r, f el = .ok r) (hx : f x = .error e) :
    processRecords cfg (some f) (pre ++ x :: rest) = .error e := by
  induction pre with
  | nil => simp [processRecords, applyTransform, hx]
  | cons a as ih =>
      obtain ⟨r, hr⟩ := hpre a (by simp)
      have htail := ih (fun el hel => hpre el (by simp [hel]))
      simp [processRecords, applyTransform, hr, htail]

/-- C8: a caller transform that succeeds on the earlier streamed records and
raises on some later one makes both `ingest_batch` and `ingest_to_dataframe`
abort with exactly that exception — whatever its class, so not wrapped into
the ingestion-specific error — and the result carries no batches at all: no
partial-batch recovery. -/
theorem transform_error_propagates
    (cfg : XMLIngestionConfig) (env : LxmlEnv) (src : XMLSource)
    (f : Element → Except PyError Record) (pre rest : List Element)
    (x : Element) (e : PyError)
    (hvs : cfg.validate_schema = false)
    (hs : stream_records cfg src = .ok (pre ++ x :: rest))
    (hpre : ∀ el ∈ pre, ∃ r, f el = .ok r) (hx : f x = .error e) :
    ingest_batch cfg src (some f) = .error e ∧
      ingest_to_dataframe cfg env src (some f) = .error e := by
  have hp := processRecords_first_error cfg f pre rest x e hpre hx
  have hb : ingest_batch cfg src (some f) = .error e := by
    simp [ingest_batch, hs, hp]
  exact ⟨hb, by simp [ingest_to_dataframe, hvs, ingestAllRecords, hb]⟩

/-- A transform that handles every record except the one with `id="3"`, on
which it raises a non-ingestion exception. -/
def failOn3 : Element → Except PyError Record :=
  fun el =>
    if el.attrib == [("id", "3")] then .error (.otherExc "boom")
    else .ok (element_to_dict cfg5 el)

/-- Witness for C8: on the five-record document the transform succeeds on
the first two records and raises on the third; the whole ingestion aborts
with exactly that exception. -/
theorem transform_error_propagates_witness :
    ingest_batch cfg5 (.wellFormed doc5) (some failOn3) =
        .error (.otherExc "boom") ∧
      ingest_to_dataframe cfg5 .importError (.wellFormed doc5) (some failOn3) =
        .error (.otherExc "boom") :=
  transform_error_propagates cfg5 .importError (.wellFormed doc5) failOn3
    [recN "1", recN "2"] [recN "4", recN "5"] (recN "3") (.otherExc "boom")
    rfl rfl
    (by
      intro el hel
      simp only [List.mem_cons, List.not_mem_nil, or_false] at hel
      rcases hel with rfl | rfl
      · exact ⟨element_to_dict cfg5 (recN "1"), rfl⟩
      · exact ⟨element_to_dict cfg5 (recN "2"), rfl⟩)
    rfl

/-- C10: with `validate_schema` set but `schema_path` absent, `validate_xml`
answers `True` without consulting the runtime environment at all, so
`ingest_to_dataframe` proceeds straight to ingestion — enabling validation
without supplying a schema silently disables the gate. -/
theorem validation_without_schema_path_no_op
    (cfg : XMLIngestionConfig) (env : LxmlEnv) (src : XMLSource)
    (f : Option (Element → Except PyError Record))
    (hv : cfg.validate_schema = true) (hp : cfg.schema_path = none) :
    validate_xml cfg env = .ok true ∧
      ingest_to_dataframe cfg env src f = ingestAllRecords cfg src f := by
  have hvx : validate_xml cfg env = .ok true := by
    simp [validate_xml, hv, hp, isFalsyPath]
  exact ⟨hvx, by simp [ingest_to_dataframe, hv, hvx]⟩

/-- Witness for C10: even an environment whose schema check would answer
`False` is ignored when `schema_path` is absent. -/
theorem validation_without_schema_path_no_op_witness :
    validate_xml cfgNoSchemaPath (.validates false) = .ok true ∧
      ingest_to_dataframe cfgNoSchemaPath (.validates false) (.wellFormed doc5)
        none = ingestAllRecords cfgNoSchemaPath (.wellFormed doc5) none :=
  validation_without_schema_path_no_op cfgNoSchemaPath (.validates false)
    (.wellFormed doc5) none rfl rfl

end XMLIngestion
